import Mathlib

/-!
Verification development for the voice-assistant server.

Shallow embedding of the parts of the repository that the specification
claims are about:
* the response-parsing stage of processWithGPT4 (src/server/services/openai.ts),
* the TTS synthesis orchestrator (TTSService in the unnamed tts source),
* natural-language reminder extraction (src/server/services/reminders.ts),
* email extraction and the email provider registry (src/server/services/email.ts),
* the weather collaborator and its route branch (getWeatherData, registerRoutes),
* the in-memory conversation/message store (src/server/storage.ts).

JavaScript machine specifics are modelled as follows: JSON.parse is embedded as
an executable recursive-descent parser over an inductive JSON value type
returning Option (throw = none); JS truthiness is a Bool predicate on JSON
values; property access on a JS value is Option-valued (undefined = none) and
raises a TypeError exactly on null; Date values are Nat millisecond timestamps;
network calls are oracles passed in as function arguments.
-/

namespace Jarvis

/-- JavaScript JSON values as produced by JSON.parse. Numbers keep their
source lexeme: only their truthiness (zero or not) is ever consumed. -/
inductive JVal where
  | jnull : JVal
  | jbool : Bool → JVal
  | jnum : String → JVal
  | jstr : String → JVal
  | jarr : List JVal → JVal
  | jobj : List (String × JVal) → JVal
deriving Repr

/-- Literal brace characters, kept out of string literals. -/
def lbrace : Char := Char.ofNat 123

def rbrace : Char := Char.ofNat 125

/-- JSON whitespace accepted by JSON.parse: space, tab, newline, carriage return. -/
def isJsonWs (c : Char) : Bool :=
  c == ' ' || c == Char.ofNat 9 || c == Char.ofNat 10 || c == Char.ofNat 13

def skipWs (l : List Char) : List Char := l.dropWhile isJsonWs

def hexVal (c : Char) : Option Nat :=
  if c.isDigit then some (c.toNat - 48)
  else if 'a' ≤ c ∧ c ≤ 'f' then some (c.toNat - 87)
  else if 'A' ≤ c ∧ c ≤ 'F' then some (c.toNat - 70)
  else none

/-- Body of a JSON string after the opening quote: returns the decoded
characters and the remainder after the closing quote. -/
def parseJStr : Nat → List Char → Option (List Char × List Char)
  | 0, _ => none
  | fuel + 1, l =>
    match l with
    | [] => none
    | c :: rest =>
      if c = '"' then some ([], rest)
      else if c = '\\' then
        match rest with
        | [] => none
        | e :: r2 =>
          if e = '"' then (parseJStr fuel r2).map (fun p => ('"' :: p.1, p.2))
          else if e = '\\' then (parseJStr fuel r2).map (fun p => ('\\' :: p.1, p.2))
          else if e = '/' then (parseJStr fuel r2).map (fun p => ('/' :: p.1, p.2))
          else if e = 'b' then (parseJStr fuel r2).map (fun p => (Char.ofNat 8 :: p.1, p.2))
          else if e = 'f' then (parseJStr fuel r2).map (fun p => (Char.ofNat 12 :: p.1, p.2))
          else if e = 'n' then (parseJStr fuel r2).map (fun p => (Char.ofNat 10 :: p.1, p.2))
          else if e = 'r' then (parseJStr fuel r2).map (fun p => (Char.ofNat 13 :: p.1, p.2))
          else if e = 't' then (parseJStr fuel r2).map (fun p => (Char.ofNat 9 :: p.1, p.2))
          else if e = 'u' then
            match r2 with
            | a :: b :: c2 :: d :: r3 =>
              match hexVal a, hexVal b, hexVal c2, hexVal d with
              | some x, some y, some z, some w =>
                (parseJStr fuel r3).map
                  (fun p => (Char.ofNat (((x * 16 + y) * 16 + z) * 16 + w) :: p.1, p.2))
              | _, _, _, _ => none
            | _ => none
          else none
      else if c.toNat < 32 then none
      else (parseJStr fuel rest).map (fun p => (c :: p.1, p.2))

/-- Fraction and exponent parts of a JSON number; on a malformed tail the
characters are left unconsumed (the enclosing parse then rejects them). -/
def numAfterInt (lex : List Char) (l : List Char) : List Char × List Char :=
  let fr : List Char × List Char :=
    match l with
    | c :: d :: rest =>
      if c = '.' ∧ d.isDigit then
        (lex ++ c :: d :: rest.takeWhile Char.isDigit, rest.dropWhile Char.isDigit)
      else (lex, l)
    | _ => (lex, l)
  match fr.2 with
  | e :: rest =>
    if e = 'e' ∨ e = 'E' then
      match rest with
      | s :: rest2 =>
        if s = '+' ∨ s = '-' then
          match rest2 with
          | d :: _ =>
            if d.isDigit then
              (fr.1 ++ e :: s :: rest2.takeWhile Char.isDigit, rest2.dropWhile Char.isDigit)
            else fr
          | [] => fr
        else if s.isDigit then
          (fr.1 ++ e :: rest.takeWhile Char.isDigit, rest.dropWhile Char.isDigit)
        else fr
      | [] => fr
    else fr
  | [] => fr

def parseNum (l : List Char) : Option (JVal × List Char) :=
  let sp : List Char × List Char :=
    match l with
    | c :: rest => if c = '-' then ([c], rest) else ([], l)
    | [] => ([], l)
  match sp.2 with
  | c :: rest =>
    if c = '0' then
      let p := numAfterInt (sp.1 ++ [c]) rest
      some (JVal.jnum (String.mk p.1), p.2)
    else if c.isDigit then
      let p := numAfterInt (sp.1 ++ c :: rest.takeWhile Char.isDigit) (rest.dropWhile Char.isDigit)
      some (JVal.jnum (String.mk p.1), p.2)
    else none
  | [] => none

mutual

/-- Recursive-descent JSON value parser (model of JSON.parse), fuelled. -/
def parseVal : Nat → List Char → Option (JVal × List Char)
  | 0, _ => none
  | fuel + 1, l =>
    match skipWs l with
    | [] => none
    | c :: rest =>
      if c = '"' then
        match parseJStr (rest.length + 1) rest with
        | some (cs, r) => some (JVal.jstr (String.mk cs), r)
        | none => none
      else if c = lbrace then
        match skipWs rest with
        | [] => none
        | d :: r2 =>
          if d = rbrace then some (JVal.jobj [], r2)
          else
            match parseFields fuel (d :: r2) with
            | some (fs, r3) => some (JVal.jobj fs, r3)
            | none => none
      else if c = '[' then
        match skipWs rest with
        | [] => none
        | d :: r2 =>
          if d = ']' then some (JVal.jarr [], r2)
          else
            match parseElems fuel (d :: r2) with
            | some (vs, r3) => some (JVal.jarr vs, r3)
            | none => none
      else if c = 'n' then
        if rest.take 3 = ['u', 'l', 'l'] then some (JVal.jnull, rest.drop 3) else none
      else if c = 't' then
        if rest.take 3 = ['r', 'u', 'e'] then some (JVal.jbool true, rest.drop 3) else none
      else if c = 'f' then
        if rest.take 4 = ['a', 'l', 's', 'e'] then some (JVal.jbool false, rest.drop 4) else none
      else if c = '-' ∨ c.isDigit then parseNum (c :: rest)
      else none

/-- One or more comma-separated object members (called past the opening brace
on a non-empty object body). -/
def parseFields : Nat → List Char → Option (List (String × JVal) × List Char)
  | 0, _ => none
  | fuel + 1, l =>
    match l with
    | [] => none
    | c :: rest =>
      if c = '"' then
        match parseJStr (rest.length + 1) rest with
        | none => none
        | some (key, r1) =>
          match skipWs r1 with
          | [] => none
          | d :: r2 =>
            if d = ':' then
              match parseVal fuel r2 with
              | none => none
              | some (v, r3) =>
                match skipWs r3 with
                | [] => none
                | e :: r4 =>
                  if e = ',' then
                    match parseFields fuel (skipWs r4) with
                    | none => none
                    | some (fs, r5) => some ((String.mk key, v) :: fs, r5)
                  else if e = rbrace then some ([(String.mk key, v)], r4)
                  else none
            else none
      else none

/-- One or more comma-separated array elements. -/
def parseElems : Nat → List Char → Option (List JVal × List Char)
  | 0, _ => none
  | fuel + 1, l =>
    match parseVal fuel l with
    | none => none
    | some (v, r1) =>
      match skipWs r1 with
      | [] => none
      | e :: r2 =>
        if e = ',' then
          match parseElems fuel r2 with
          | none => none
          | some (vs, r3) => some (v :: vs, r3)
        else if e = ']' then some ([v], r2)
        else none

end

/-- Model of JSON.parse: parses a complete value, rejecting trailing garbage.
none models a thrown SyntaxError. -/
def jparse (s : String) : Option JVal :=
  match parseVal (s.length + 1) s.toList with
  | some (v, r) => if (skipWs r).isEmpty then some v else none
  | none => none

/-- JS property access on a parsed JSON value: none models undefined
(also the result of property access on any non-object primitive).
Duplicate keys resolve to the last occurrence, as JSON.parse does. -/
def getField (v : JVal) (k : String) : Option JVal :=
  match v with
  | JVal.jobj fs => fs.foldl (fun acc p => if p.1 = k then some p.2 else acc) none
  | _ => none

/-- A JSON number lexeme denoting zero (the only falsy numbers). -/
def numIsZero (lex : String) : Bool :=
  (lex.toList.takeWhile (fun c => !(c == 'e') && !(c == 'E'))).all
    (fun c => !c.isDigit || c == '0')

/-- JS truthiness of a parsed JSON value. -/
def truthy : JVal → Bool
  | JVal.jnull => false
  | JVal.jbool b => b
  | JVal.jnum lex => !numIsZero lex
  | JVal.jstr s => !s.isEmpty
  | JVal.jarr _ => true
  | JVal.jobj _ => true

/-- JS logical-or defaulting: `x || d` where the left side may be undefined. -/
def jor (o : Option JVal) (d : JVal) : JVal :=
  match o with
  | some v => if truthy v then v else d
  | none => d

/-!
Response-parsing stage of processWithGPT4 (src/server/services/openai.ts,
lines 144-182).
-/

/-- The code-fence marker sequence matched by the global replace regex:
the alternation tries the 7-character json fence first, then the bare fence. -/
def fenceJson : List Char := "\x60\x60\x60json".toList

/-- Global replacement of every code-fence marker with the empty string,
scanning left to right, longest alternative first. -/
def stripFencesGo : Nat → List Char → List Char
  | 0, _ => []
  | _, [] => []
  | fuel + 1, c :: rest =>
    if (c :: rest).take 7 = fenceJson then stripFencesGo fuel ((c :: rest).drop 7)
    else if (c :: rest).take 3 = fenceJson.take 3 then stripFencesGo fuel ((c :: rest).drop 3)
    else c :: stripFencesGo fuel rest

def stripFences (s : String) : String := String.mk (stripFencesGo (s.length + 1) s.toList)

/-- The whitespace characters removed by the JS trim method (ASCII part:
tab through carriage return, and space). -/
def isTrimWs (c : Char) : Bool := c == ' ' || (9 ≤ c.toNat && c.toNat ≤ 13)

/-- Model of the JS trim method. -/
def jsTrim (s : String) : String :=
  String.mk (((s.toList.dropWhile isTrimWs).reverse.dropWhile isTrimWs).reverse)

/-- The suffix of a list starting at the first occurrence of a character. -/
def suffixFrom (c : Char) : List Char → Option (List Char)
  | [] => none
  | a :: rest => if a = c then some (a :: rest) else suffixFrom c rest

/-- The prefix of a list ending at the last occurrence of a character. -/
def cutAfterLast (c : Char) (l : List Char) : Option (List Char) :=
  (suffixFrom c l.reverse).map List.reverse

/-- The greedy dot-all brace regex of the parse stage: the substring from the
first opening brace through the last closing brace after it, if any. -/
def braceMatch (s : String) : Option String :=
  match suffixFrom lbrace s.toList with
  | none => none
  | some tail =>
    match cutAfterLast rbrace tail with
    | none => none
    | some pre => some (String.mk pre)

def apologyShort : String := "I encountered an error processing your request."

def apologyLong : String := "I apologize, but I encountered an error processing your request."

/-- The synthesized object assigned when every JSON parse attempt fails:
message is the first 200 characters of the raw content, or the short apology
when that substring is empty. -/
def fallbackResult (content : String) : JVal :=
  JVal.jobj
    [("message", JVal.jstr (if (content.take 200).isEmpty then apologyShort
                            else content.take 200)),
     ("action", JVal.jstr "none"),
     ("data", JVal.jobj [])]

/-- The value bound to `result` after the parse ladder of processWithGPT4:
direct JSON.parse; on failure strip fences, trim, extract the outermost brace
span and parse that; on failure the synthesized fallback object. -/
def rawResult (content : String) : JVal :=
  match jparse content with
  | some v => v
  | none =>
    match braceMatch (jsTrim (stripFences content)) with
    | some sub =>
      match jparse sub with
      | some v => v
      | none => fallbackResult content
    | none => fallbackResult content

/-- The structured assistant reply returned by processWithGPT4. The fields
keep their JS runtime values (not necessarily strings). -/
structure Triple where
  message : JVal
  action : JVal
  data : JVal
deriving Repr

/-- The return statement of the parse stage: field accesses on `result` throw
a TypeError exactly when `result` is null; otherwise each field is defaulted
with JS logical-or as in the source. -/
def parseStage (content : String) : Except String Triple :=
  match rawResult content with
  | JVal.jnull => Except.error "TypeError: Cannot read properties of null"
  | result =>
    Except.ok
      { message := jor (getField result "message")
          (jor (some (JVal.jstr content)) (JVal.jstr apologyLong)),
        action := jor (getField result "action") (JVal.jstr "none"),
        data := jor (getField result "data") (JVal.jobj []) }

/-- Every recovery step of the parse ladder fails on this content. -/
def allRecoveryFails (content : String) : Prop :=
  jparse content = none ∧
  ∀ sub, braceMatch (jsTrim (stripFences content)) = some sub → jparse sub = none

theorem suffixFrom_cons (c : Char) :
    ∀ l t : List Char, suffixFrom c l = some t → ∃ q, t = c :: q := by
  intro l
  induction l with
  | nil => intro t h; simp [suffixFrom] at h
  | cons a rest ih =>
    intro t h
    by_cases ha : a = c
    · simp only [suffixFrom, if_pos ha] at h
      exact ⟨rest, by cases h; rw [ha]⟩
    · simp only [suffixFrom, if_neg ha] at h
      exact ih t h

theorem suffixFrom_suffix (c : Char) :
    ∀ l t : List Char, suffixFrom c l = some t → t <:+ l := by
  intro l
  induction l with
  | nil => intro t h; simp [suffixFrom] at h
  | cons a rest ih =>
    intro t h
    by_cases ha : a = c
    · simp only [suffixFrom, if_pos ha] at h
      cases h
      exact List.suffix_refl _
    · simp only [suffixFrom, if_neg ha] at h
      exact (ih t h).trans (List.suffix_cons a rest)

theorem cutAfterLast_cons (c a : Char) (l pre : List Char)
    (h : cutAfterLast c (a :: l) = some pre) : ∃ q, pre = a :: q := by
  unfold cutAfterLast at h
  cases h1 : suffixFrom c (a :: l).reverse with
  | none => rw [h1] at h; cases h
  | some t =>
    rw [h1] at h
    simp only [Option.map_some'] at h
    obtain ⟨u, hu⟩ := suffixFrom_suffix c _ t h1
    obtain ⟨q, hq⟩ := suffixFrom_cons c _ t h1
    have hal : t.reverse ++ u.reverse = a :: l := by
      have h2 := congrArg List.reverse hu
      simpa [List.reverse_append] using h2
    cases hp : t.reverse with
    | nil =>
      exfalso
      rw [hq] at hp
      simp at hp
    | cons p ps =>
      rw [hp] at hal
      have ha : p = a := by
        have := hal
        simp only [List.cons_append] at this
        exact (List.cons.inj this).1
      have hpre : pre = t.reverse := (Option.some.inj h).symm
      exact ⟨ps, by rw [hpre, hp, ha]⟩

theorem parseVal_cons_lbrace (fuel : Nat) (q : List Char) (p : JVal × List Char)
    (h : parseVal (fuel + 1) (lbrace :: q) = some p) : ∃ fs, p.1 = JVal.jobj fs := by
  rw [show parseVal (fuel + 1) (lbrace :: q)
        = (match skipWs q with
           | [] => none
           | d :: r2 =>
             if d = rbrace then some (JVal.jobj [], r2)
             else
               match parseFields fuel (d :: r2) with
               | some (fs, r3) => some (JVal.jobj fs, r3)
               | none => none)
      from rfl] at h
  cases hq : skipWs q with
  | nil => rw [hq] at h; cases h
  | cons d r2 =>
    rw [hq] at h
    rw [show (match d :: r2 with
              | [] => (none : Option (JVal × List Char))
              | d :: r2 =>
                if d = rbrace then some (JVal.jobj [], r2)
                else
                  match parseFields fuel (d :: r2) with
                  | some (fs, r3) => some (JVal.jobj fs, r3)
                  | none => none)
          = (if d = rbrace then some (JVal.jobj [], r2)
             else
               match parseFields fuel (d :: r2) with
               | some (fs, r3) => some (JVal.jobj fs, r3)
               | none => none)
        from rfl] at h
    by_cases hd : d = rbrace
    · rw [if_pos hd] at h
      cases h
      exact ⟨[], rfl⟩
    · rw [if_neg hd] at h
      cases hf : parseFields fuel (d :: r2) with
      | none => rw [hf] at h; cases h
      | some pr =>
        rw [hf] at h
        cases pr with
        | mk fs r3 =>
          cases h
          exact ⟨fs, rfl⟩

theorem jparse_cons_lbrace_ne_null (q : List Char) :
    jparse (String.mk (lbrace :: q)) ≠ some JVal.jnull := by
  intro h
  unfold jparse at h
  rw [show (String.mk (lbrace :: q)).length = (lbrace :: q).length from rfl,
      show (String.mk (lbrace :: q)).toList = lbrace :: q from rfl] at h
  split at h
  · rename_i p v r hp
    obtain ⟨fs, hfs⟩ := parseVal_cons_lbrace _ _ _ hp
    split at h
    · have hv := Option.some.inj h
      rw [hv] at hfs
      exact JVal.noConfusion hfs
    · cases h
  · cases h

theorem braceMatch_head (s sub : String) (h : braceMatch s = some sub) :
    ∃ q, sub = String.mk (lbrace :: q) := by
  unfold braceMatch at h
  split at h
  · cases h
  · rename_i tail h1
    split at h
    · cases h
    · rename_i pre h2
      obtain ⟨q, hq⟩ := suffixFrom_cons lbrace _ tail h1
      subst hq
      obtain ⟨q2, hq2⟩ := cutAfterLast_cons rbrace lbrace q pre h2
      exact ⟨q2, by cases h; rw [hq2]⟩

theorem rawResult_ne_null (content : String)
    (hnull : jparse content ≠ some JVal.jnull) : rawResult content ≠ JVal.jnull := by
  intro hv
  unfold rawResult at hv
  cases hp : jparse content with
  | some v =>
    simp only [hp] at hv
    exact hnull (hp.trans (congrArg some hv))
  | none =>
    simp only [hp] at hv
    cases hbm : braceMatch (jsTrim (stripFences content)) with
    | none =>
      exact JVal.noConfusion (by simpa only [hbm] using hv)
    | some sub =>
      simp only [hbm] at hv
      cases hps : jparse sub with
      | none => exact JVal.noConfusion (by simpa only [hps] using hv)
      | some v =>
        simp only [hps] at hv
        obtain ⟨q, hq⟩ := braceMatch_head _ _ hbm
        rw [hv] at hps
        exact jparse_cons_lbrace_ne_null q (hq ▸ hps)

/-- The parse stage reduces to its field-defaulted ok value whenever the
recovered result is not JSON null. -/
theorem parseStage_eq_of_ne_null (content : String)
    (h : rawResult content ≠ JVal.jnull) :
    parseStage content = Except.ok
      { message := jor (getField (rawResult content) "message")
          (jor (some (JVal.jstr content)) (JVal.jstr apologyLong)),
        action := jor (getField (rawResult content) "action") (JVal.jstr "none"),
        data := jor (getField (rawResult content) "data") (JVal.jobj []) } := by
  unfold parseStage
  cases hv : rawResult content with
  | jnull => exact absurd hv h
  | jbool b => rfl
  | jnum lex => rfl
  | jstr s => rfl
  | jarr vs => rfl
  | jobj fs => rfl

/-- Claim C1 (amended): for every raw model output, unless the raw text parses
as the JSON literal null (in which case the field access on the parsed result
raises a TypeError that the outer handler converts into a generic failure),
the response-parsing stage of processWithGPT4 returns a well-formed triple;
and when every parse attempt fails, the message is the first 200 characters of
the raw text (or the generic apology when that is empty), the action is none
and the data is an empty structure. -/
theorem parseStage_wellformed_unless_null (content : String)
    (hnull : jparse content ≠ some JVal.jnull) :
    (∃ t, parseStage content = Except.ok t) ∧
    (allRecoveryFails content →
      parseStage content = Except.ok
        { message := JVal.jstr (if (content.take 200).isEmpty then apologyShort
                                else content.take 200),
          action := JVal.jstr "none",
          data := JVal.jobj [] }) := by
  have hne := rawResult_ne_null content hnull
  have heq := parseStage_eq_of_ne_null content hne
  constructor
  · exact ⟨_, heq⟩
  · intro hfail
    have hraw : rawResult content = fallbackResult content := by
      unfold rawResult
      cases hbm : braceMatch (jsTrim (stripFences content)) with
      | none => simp only [hfail.1, hbm]
      | some sub => simp only [hfail.1, hbm, hfail.2 sub hbm]
    rw [heq, hraw]
    unfold fallbackResult
    by_cases hc : (content.take 200).isEmpty
    · simp only [getField, jor, truthy, hc, if_true, List.foldl]
      simp [hc]
      intro hcontr
      exact absurd hcontr (by decide)
    · simp [getField, jor, truthy, hc]

/-- Claim C1 counterexample: the raw model output consisting of the JSON
literal null makes the parse stage raise instead of returning a triple. -/
theorem parseStage_raises_on_null :
    parseStage "null" = Except.error "TypeError: Cannot read properties of null" := rfl

set_option maxRecDepth 8192 in
/-- Witness for the amended claim C1 at a concrete non-JSON output. -/
theorem parseStage_wellformed_witness :
    (∃ t, parseStage "Sure thing!" = Except.ok t) ∧
    parseStage "Sure thing!" = Except.ok
      { message := JVal.jstr "Sure thing!", action := JVal.jstr "none",
        data := JVal.jobj [] } := by
  have hn : jparse "Sure thing!" = none := rfl
  have hnull : jparse "Sure thing!" ≠ some JVal.jnull := by
    rw [hn]; intro hc; cases hc
  have hfall : allRecoveryFails "Sure thing!" := by
    refine ⟨hn, ?_⟩
    intro sub hsub
    rw [show braceMatch (jsTrim (stripFences "Sure thing!")) = none from rfl] at hsub
    cases hsub
  refine ⟨(parseStage_wellformed_unless_null "Sure thing!" hnull).1, ?_⟩
  have h2 := (parseStage_wellformed_unless_null "Sure thing!" hnull).2 hfall
  exact h2

/-- Claim C2 (amended): an absent or falsy action tag is normalized to none
and an absent or falsy data field to an empty structure, but a truthy
unrecognized action tag is passed through unchanged, so the returned action is
not restricted to the closed set. -/
theorem parseStage_action_defaulting (content : String)
    (hnull : jparse content ≠ some JVal.jnull) :
    ∃ t, parseStage content = Except.ok t ∧
      t.action = jor (getField (rawResult content) "action") (JVal.jstr "none") ∧
      t.data = jor (getField (rawResult content) "data") (JVal.jobj []) ∧
      (getField (rawResult content) "action" = none → t.action = JVal.jstr "none") ∧
      (getField (rawResult content) "data" = none → t.data = JVal.jobj []) ∧
      (∀ s, getField (rawResult content) "action" = some (JVal.jstr s) → ¬ s.isEmpty →
        t.action = JVal.jstr s) := by
  have hne := rawResult_ne_null content hnull
  refine ⟨_, parseStage_eq_of_ne_null content hne, rfl, rfl, ?_, ?_, ?_⟩
  · intro h; simp [jor, h]
  · intro h; simp [jor, h]
  · intro s h hs
    simp only [h, jor, truthy]
    rw [if_pos (by simpa using hs)]

/-- Claim C2 counterexample: a parsed reply whose action tag is the
unrecognized string foobar is returned with that tag unchanged, not
normalized to none. -/
theorem parseStage_unrecognized_action_passthrough :
    (parseStage "\x7b\"message\":\"hi\",\"action\":\"foobar\",\"data\":\x7b\x7d\x7d"
      = Except.ok { message := JVal.jstr "hi", action := JVal.jstr "foobar",
                    data := JVal.jobj [] }) ∧
    "foobar" ∉ ["none", "weather", "news", "reminder", "email", "document", "music"] := by
  exact ⟨rfl, by decide⟩

/-- Witness for the amended claim C2 at a parsed reply with no action field. -/
theorem parseStage_action_defaulting_witness :
    ∃ t, parseStage "\x7b\"message\":\"ok\"\x7d" = Except.ok t ∧
      t.action = JVal.jstr "none" ∧ t.data = JVal.jobj [] := by
  have hnull : jparse "\x7b\"message\":\"ok\"\x7d" ≠ some JVal.jnull := by
    intro hc
    rw [show jparse "\x7b\"message\":\"ok\"\x7d"
          = some (JVal.jobj [("message", JVal.jstr "ok")]) from rfl] at hc
    exact JVal.noConfusion (Option.some.inj hc)
  obtain ⟨t, ht, _, _, hact, hdat, _⟩ := parseStage_action_defaulting _ hnull
  exact ⟨t, ht, hact rfl, hdat rfl⟩

/-!
Leftmost-match scanning shared by the regex-based natural-language
extractors (reminders.ts, email.ts).
-/

/-- Lowercase an ASCII character (model of JS toLowerCase and of the
case-insensitive flag on the ASCII-only patterns involved). -/
def lowerC (c : Char) : Char :=
  if 'A' ≤ c ∧ c ≤ 'Z' then Char.ofNat (c.toNat + 32) else c

/-- Case-insensitive literal match at the head of the input, returning the
matched length. -/
def tryLit (pat : List Char) (l : List Char) : Option Nat :=
  if (l.take pat.length).map lowerC = pat.map lowerC then some pat.length else none

/-- Value of the first (leftmost) match of an at-position matcher. -/
def scanFirst (f : List Char → Option α) : List Char → Option α
  | [] => f []
  | c :: rest =>
    match f (c :: rest) with
    | some x => some x
    | none => scanFirst f rest

/-- Position and length of the first (leftmost) match of an at-position
matcher, for first-occurrence replacement. -/
def scanFirstPos (f : List Char → Option Nat) : List Char → Option (Nat × Nat)
  | [] => (f []).map (fun len => (0, len))
  | c :: rest =>
    match f (c :: rest) with
    | some len => some (0, len)
    | none => (scanFirstPos f rest).map (fun p => (p.1 + 1, p.2))

/-- JS replace of the first match of a pattern with the empty string. -/
def replaceFirstBy (f : List Char → Option Nat) (s : String) : String :=
  match scanFirstPos f s.toList with
  | some (pos, len) => String.mk (s.toList.take pos ++ s.toList.drop (pos + len))
  | none => s

/-- Case-insensitive containment: models includes on lowercased text as well
as a case-insensitive literal regex test. -/
def containsI (s : String) (pat : String) : Bool :=
  (scanFirst (tryLit pat.toList) s.toList).isSome

/-- Alternation of case-insensitive literals, first alternative wins. -/
def tryAnyLit (pats : List String) (l : List Char) : Option Nat :=
  match pats with
  | [] => none
  | p :: rest =>
    match tryLit p.toList l with
    | some len => some len
    | none => tryAnyLit rest l

/-!
Natural-language reminder extraction
(ReminderService.parseNaturalLanguageReminder, src/server/services/reminders.ts
lines 86-153).
-/

def digitsToNat (ds : List Char) : Nat :=
  ds.foldl (fun acc c => acc * 10 + (c.toNat - 48)) 0

/-- At-position match of the relative-time pattern: the letters i n, a space,
one or more digits, a space, the unit word, an optional trailing s, all
case-insensitive. Returns the parsed digit value and the matched length. -/
def tryTimeAt (unit : List Char) (l : List Char) : Option (Nat × Nat) :=
  match l with
  | i :: n :: sp :: rest =>
    if lowerC i = 'i' ∧ lowerC n = 'n' ∧ sp = ' ' then
      let ds := rest.takeWhile Char.isDigit
      if ds.isEmpty then none
      else
        match rest.dropWhile Char.isDigit with
        | sp2 :: rest2 =>
          if sp2 = ' ' then
            match tryLit unit rest2 with
            | some ulen =>
              let extra : Nat :=
                match rest2.drop ulen with
                | c :: _ => if lowerC c = 's' then 1 else 0
                | [] => 0
              some (digitsToNat ds, 3 + ds.length + 1 + (ulen + extra))
            | none => none
          else none
        | [] => none
    else none
  | _ => none

/-- First match of one relative-time pattern over the whole text, returning
the numeric amount (match group 1 fed to parseInt). -/
def findInN (unit : String) (text : String) : Option Nat :=
  scanFirst (fun l => (tryTimeAt unit.toList l).map Prod.fst) text.toList

/-- Millisecond offset of the due date from now: the time patterns are tried
in the fixed array order (hours, minutes, days, tomorrow, next week), the
first matching pattern wins, and with no match the default is one hour. -/
def dueOffsetMs (text : String) : Nat :=
  match findInN "hour" text with
  | some n => n * 3600000
  | none =>
    match findInN "minute" text with
    | some n => n * 60000
    | none =>
      match findInN "day" text with
      | some n => n * 86400000
      | none =>
        if containsI text "tomorrow" then 86400000
        else if containsI text "next week" then 604800000
        else 3600000

/-- At-position match of the title-stripping pattern (in, digits, unit) with
the three unit alternatives tried in alternation order. -/
def tryInAnyUnit (l : List Char) : Option Nat :=
  match tryTimeAt "hour".toList l with
  | some p => some p.2
  | none =>
    match tryTimeAt "minute".toList l with
    | some p => some p.2
    | none => (tryTimeAt "day".toList l).map Prod.snd

inductive Priority where
  | low
  | medium
  | high
deriving Repr, DecidableEq

/-- Title extraction: strip a leading remind-me-to phrase, the first
time phrase, the first tomorrow/next-week phrase and the first priority
keyword, trim, and default to the literal Reminder when empty. -/
def reminderTitle (text : String) : String :=
  let t1 := replaceFirstBy (tryLit "remind me to ".toList) text
  let t2 := replaceFirstBy tryInAnyUnit t1
  let t3 := replaceFirstBy (tryAnyLit ["tomorrow", "next week"]) t2
  let t4 := replaceFirstBy
    (tryAnyLit ["urgent", "important", "asap", "low priority", "when possible"]) t3
  let t := jsTrim t4
  if t.isEmpty then "Reminder" else t

/-- Priority keyword scan on the lowercased text. -/
def extractPriority (text : String) : Priority :=
  if containsI text "urgent" || containsI text "important" || containsI text "asap" then
    Priority.high
  else if containsI text "low priority" || containsI text "when possible" then
    Priority.low
  else Priority.medium

/-- Result record of parseNaturalLanguageReminder. Due date is an absolute
millisecond timestamp relative to the now parameter. -/
structure CreateReminderData where
  title : String
  dueDate : Nat
  priority : Priority
  category : String
deriving Repr, DecidableEq

/-- Model of ReminderService.parseNaturalLanguageReminder. The defensive
try/catch of the source is unreachable (no throwing operation occurs), so the
null branch is dropped. -/
def parseNaturalLanguageReminder (now : Nat) (text : String) : CreateReminderData :=
  { title := reminderTitle text
    dueDate := now + dueOffsetMs text
    priority := extractPriority text
    category := "voice_assistant" }

/-- Claim C5: the relative-time patterns are tried in the fixed priority
order hours, minutes, days, tomorrow, next week, and the first match wins;
in particular when the hours pattern matches with amount 2 (as in text
containing in-2-hours together with tomorrow), the due offset is two hours,
not twenty-four. -/
theorem reminder_time_precedence (text : String) :
    (∀ n, findInN "hour" text = some n → dueOffsetMs text = n * 3600000) ∧
    (findInN "hour" text = none →
      ∀ n, findInN "minute" text = some n → dueOffsetMs text = n * 60000) ∧
    (findInN "hour" text = none → findInN "minute" text = none →
      ∀ n, findInN "day" text = some n → dueOffsetMs text = n * 86400000) ∧
    (findInN "hour" text = none → findInN "minute" text = none →
      findInN "day" text = none → containsI text "tomorrow" = true →
      dueOffsetMs text = 86400000) ∧
    (findInN "hour" text = none → findInN "minute" text = none →
      findInN "day" text = none → containsI text "tomorrow" = false →
      containsI text "next week" = true → dueOffsetMs text = 604800000) ∧
    (findInN "hour" text = none → findInN "minute" text = none →
      findInN "day" text = none → containsI text "tomorrow" = false →
      containsI text "next week" = false → dueOffsetMs text = 3600000) ∧
    (findInN "hour" text = some 2 → containsI text "tomorrow" = true →
      dueOffsetMs text = 7200000 ∧ dueOffsetMs text ≠ 86400000) := by
  refine ⟨?_, ?_, ?_, ?_, ?_, ?_, ?_⟩
  · intro n h; simp [dueOffsetMs, h]
  · intro h0 n h; simp [dueOffsetMs, h0, h]
  · intro h0 h1 n h; simp [dueOffsetMs, h0, h1, h]
  · intro h0 h1 h2 h3; simp [dueOffsetMs, h0, h1, h2, h3]
  · intro h0 h1 h2 h3 h4; simp [dueOffsetMs, h0, h1, h2, h3, h4]
  · intro h0 h1 h2 h3 h4; simp [dueOffsetMs, h0, h1, h2, h3, h4]
  · intro h h3
    refine ⟨by simp [dueOffsetMs, h], ?_⟩
    simp [dueOffsetMs, h]

set_option maxRecDepth 8192 in
/-- Witness for claim C5 on text containing both in-2-hours and tomorrow. -/
theorem reminder_time_precedence_witness :
    findInN "hour" "pack bags in 2 hours tomorrow" = some 2 ∧
    containsI "pack bags in 2 hours tomorrow" "tomorrow" = true ∧
    dueOffsetMs "pack bags in 2 hours tomorrow" = 7200000 := by
  refine ⟨rfl, rfl, ?_⟩
  exact ((reminder_time_precedence "pack bags in 2 hours tomorrow").2.2.2.2.2.2 rfl rfl).1

set_option maxRecDepth 8192 in
/-- Claim C6 counterexample: on the utterance remind-me-to-call-Sam-in-30-
minutes-urgent, the extracted title is the string call-Sam-comma (the comma of
the stripped time phrase survives), not call-Sam. -/
theorem reminder_call_sam_title :
    (parseNaturalLanguageReminder 0 "remind me to call Sam in 30 minutes, urgent").title
      = "call Sam ," ∧ ("call Sam ," : String) ≠ "call Sam" := by
  exact ⟨rfl, by decide⟩

set_option maxRecDepth 8192 in
/-- Claim C6 (amended): the utterance remind-me-to-call-Sam-in-30-minutes-
urgent yields priority high and a due time of exactly now plus 30 minutes,
but the title is call-Sam-comma: stripping the time phrase leaves the
trailing comma (and a doubled space, collapsed only at the ends by trim). -/
theorem reminder_call_sam_parse (now : Nat) :
    parseNaturalLanguageReminder now "remind me to call Sam in 30 minutes, urgent"
      = { title := "call Sam ,", dueDate := now + 1800000,
          priority := Priority.high, category := "voice_assistant" } := by
  have h1 : reminderTitle "remind me to call Sam in 30 minutes, urgent" = "call Sam ," := rfl
  have h2 : dueOffsetMs "remind me to call Sam in 30 minutes, urgent" = 1800000 := rfl
  have h3 : extractPriority "remind me to call Sam in 30 minutes, urgent" = Priority.high := rfl
  simp [parseNaturalLanguageReminder, h1, h2, h3]

/-!
Email extraction and the email provider registry
(EmailService, src/server/services/email.ts).
-/

/-- Character class of the local part of the address pattern. -/
def isLocalChar (c : Char) : Bool :=
  c.isAlpha || c.isDigit || c == '.' || c == '_' || c == '%' || c == '+' || c == '-'

/-- Character class of the domain part of the address pattern. -/
def isDomainChar (c : Char) : Bool := c.isAlpha || c.isDigit || c == '.' || c == '-'

/-- A dot position inside the domain run usable by the address pattern: at
least one domain character before it and at least two letters after it. -/
def validDot (d : List Char) (k : Nat) : Bool :=
  match d.drop k with
  | c :: tail => c == '.' && 2 ≤ (tail.takeWhile Char.isAlpha).length && 1 ≤ k
  | [] => false

/-- Greedy-with-backtracking tail of the address pattern after the at sign:
within the maximal domain-character run, the regex settles on the last dot
followed by at least two letters, and the match extends over the maximal
letter run after that dot. -/
def emailDomainMatch (l : List Char) : Option (List Char) :=
  let d := l.takeWhile isDomainChar
  match ((List.range d.length).filter (validDot d)).getLast? with
  | some k => some (d.take (k + 1) ++ (d.drop (k + 1)).takeWhile Char.isAlpha)
  | none => none

/-- At-position match of lead-word alternation, one or more whitespace
characters, then the address pattern. Returns the captured address and the
total matched length. -/
def tryEmailAt : List String → List Char → Option (String × Nat)
  | [], _ => none
  | lead :: more, l =>
    match tryLit lead.toList l with
    | none => tryEmailAt more l
    | some llen =>
      let afterLead := l.drop llen
      let ws := afterLead.takeWhile isTrimWs
      if ws.isEmpty then tryEmailAt more l
      else
        let afterWs := afterLead.drop ws.length
        let locp := afterWs.takeWhile isLocalChar
        if locp.isEmpty then tryEmailAt more l
        else
          match afterWs.drop locp.length with
          | c :: tail =>
            if c = '@' then
              match emailDomainMatch tail with
              | some dom =>
                some (String.mk (locp ++ '@' :: dom),
                      llen + ws.length + locp.length + 1 + dom.length)
              | none => tryEmailAt more l
            else tryEmailAt more l
          | [] => tryEmailAt more l

/-- The address-extraction regex of parseEmailFromText: leftmost match of a
lead word (to, send to, email) followed by whitespace and an address; the
captured group is the address. -/
def emailLeadMatch (text : String) : Option String :=
  (scanFirst (tryEmailAt ["to", "send to", "email"]) text.toList).map Prod.fst

/-- At-position match of the subject pattern: a lead word (subject, about,
regarding), whitespace, an optional quote or colon, then the captured run of
non-quote characters. -/
def trySubjectAt (l : List Char) : Option String :=
  match tryAnyLit ["subject", "about", "regarding"] l with
  | none => none
  | some llen =>
    let afterLead := l.drop llen
    let ws := afterLead.takeWhile isTrimWs
    if ws.isEmpty then none
    else
      let afterWs := afterLead.drop ws.length
      let afterQ :=
        match afterWs with
        | c :: rest => if c = '"' || c = ':' || c = '\x27' then rest else afterWs
        | [] => afterWs
      let cap := afterQ.takeWhile (fun c => !(c == '"') && !(c == '\x27'))
      if cap.isEmpty then none else some (String.mk cap)

/-- Span (length) version of the subject pattern for first-occurrence
replacement, including the optional surrounding quote characters. -/
def trySubjectSpan (l : List Char) : Option Nat :=
  match tryAnyLit ["subject", "about", "regarding"] l with
  | none => none
  | some llen =>
    let afterLead := l.drop llen
    let ws := afterLead.takeWhile isTrimWs
    if ws.isEmpty then none
    else
      let afterWs := afterLead.drop ws.length
      let lq : Nat :=
        match afterWs with
        | c :: _ => if c = '"' || c = ':' || c = '\x27' then 1 else 0
        | [] => 0
      let afterQ := afterWs.drop lq
      let cap := afterQ.takeWhile (fun c => !(c == '"') && !(c == '\x27'))
      if cap.isEmpty then none
      else
        let rq : Nat :=
          match afterQ.drop cap.length with
          | c :: _ => if c = '"' || c = ':' || c = '\x27' then 1 else 0
          | [] => 0
        some (llen + ws.length + lq + cap.length + rq)

/-- Subject extraction: first subject-pattern capture, trimmed, with the
fixed default. -/
def subjectOf (text : String) : String :=
  match scanFirst trySubjectAt text.toList with
  | some cap => jsTrim cap
  | none => "Message from Voice Assistant"

/-- Body extraction: remove the first send-email-to address phrase and the
first subject phrase, trim, and default to the fixed placeholder sentence. -/
def bodyOf (text : String) : String :=
  let b1 := replaceFirstBy (fun l => (tryEmailAt ["send", "email", "to"] l).map Prod.snd) text
  let b2 := replaceFirstBy trySubjectSpan b1
  let b := jsTrim b2
  if b.isEmpty then "This message was sent via voice assistant." else b

structure EmailData where
  toAddr : String
  subject : String
  body : String
deriving Repr, DecidableEq

/-- Model of EmailService.parseEmailFromText: nothing when no address follows
a lead word, otherwise the recipient, subject and body. -/
def parseEmailFromText (text : String) : Option EmailData :=
  match emailLeadMatch text with
  | none => none
  | some addr => some { toAddr := addr, subject := subjectOf text, body := bodyOf text }

/-- Claim C7: when no email address follows one of the lead-in words, email
extraction returns the no-result value, never a partially filled structure. -/
theorem parseEmail_none_without_address (text : String)
    (h : emailLeadMatch text = none) : parseEmailFromText text = none := by
  simp [parseEmailFromText, h]

set_option maxRecDepth 8192 in
/-- Witness for claim C7 on a concrete address-free text. -/
theorem parseEmail_none_witness :
    emailLeadMatch "remind me about nothing" = none ∧
    parseEmailFromText "remind me about nothing" = none := by
  have h : emailLeadMatch "remind me about nothing" = none := rfl
  exact ⟨h, parseEmail_none_without_address _ h⟩

/-- Registered email providers, in registration order (EmailService
constructor). -/
def emailProviders : List String := ["gmail", "sendgrid"]

/-- The default provider name of EmailService. -/
def emailDefaultProvider : String := "demo"

structure SendResult where
  success : Bool
  messageId : Option String
  error : Option String
deriving Repr, DecidableEq

/-- Model of EmailService.sendEmail with an oracle for the registered
provider implementations. Also returns the list of providers actually
invoked, so that no-send-attempted is expressible. -/
def emailSendEmail (env : String → EmailData → SendResult) (data : EmailData)
    (provider : String) : SendResult × List String :=
  if provider ∈ emailProviders then
    (env provider data, [provider])
  else
    ({ success := false, messageId := none,
       error := some ("Email provider \x27" ++ provider ++ "\x27 not found") }, [])

/-- The email branch of the voice-processing route (registerRoutes): parse
the utterance; when extraction succeeds, send with no explicit provider name,
so the default applies; otherwise leave the response data unchanged. -/
def emailBranch (env : String → EmailData → SendResult) (text : String) :
    Option (SendResult × List String) :=
  match parseEmailFromText text with
  | some d => some (emailSendEmail env d emailDefaultProvider)
  | none => none

/-- The failure value produced for the unregistered default provider. -/
def demoNotFound : SendResult :=
  { success := false, messageId := none,
    error := some "Email provider \x27demo\x27 not found" }

/-- Claim C10: the default provider name demo is never registered (only gmail
and sendgrid are), so every sendEmail call without an explicit provider -
including the voice email branch, which passes none - fails with the
provider-not-found error and invokes no provider at all. -/
theorem email_default_provider_unregistered :
    emailDefaultProvider = "demo" ∧
    emailDefaultProvider ∉ emailProviders ∧
    (∀ env data, emailSendEmail env data emailDefaultProvider = (demoNotFound, [])) ∧
    (∀ env text r, emailBranch env text = some r → r = (demoNotFound, [])) := by
  have hsend : ∀ env data, emailSendEmail env data emailDefaultProvider = (demoNotFound, []) := by
    intro env data
    unfold emailSendEmail
    rw [if_neg (show ¬ emailDefaultProvider ∈ emailProviders from by decide)]
    rfl
  refine ⟨rfl, by decide, hsend, ?_⟩
  intro env text r h
  unfold emailBranch at h
  cases hp : parseEmailFromText text with
  | none => rw [hp] at h; cases h
  | some d =>
    rw [hp] at h
    have hr := Option.some.inj h
    rw [← hr, hsend]

set_option maxRecDepth 8192 in
/-- Witness for claim C10: a concrete parsable email utterance still produces
the provider-not-found failure with no provider invoked. -/
theorem email_default_provider_witness :
    emailBranch (fun _ _ => { success := true, messageId := none, error := none })
      "send an email to bob@example.com hello" = some (demoNotFound, []) := by
  obtain ⟨-, -, -, h4⟩ := email_default_provider_unregistered
  cases hb : emailBranch (fun _ _ => { success := true, messageId := none, error := none })
      "send an email to bob@example.com hello" with
  | none =>
    exfalso
    rw [show emailBranch (fun _ _ => { success := true, messageId := none, error := none })
          "send an email to bob@example.com hello"
          = some (emailSendEmail (fun _ _ => { success := true, messageId := none, error := none })
              { toAddr := "bob@example.com", subject := "Message from Voice Assistant",
                body := "send an email  hello" } emailDefaultProvider) from rfl] at hb
    cases hb
  | some r => rw [h4 _ _ r hb]

/-!
TTS synthesis orchestrator (TTSService in the unnamed tts service source,
same module as src/server/services/tts.ts).
-/

/-- Providers registered by initializeProviders, in registration order. -/
def registeredProviders : List String := ["elevenlabs", "google", "openai", "browser"]

/-- The fixed fallback order walked by synthesizeToFile. -/
def fallbackOrder : List String := ["openai", "elevenlabs", "google", "browser"]

/-- The default provider of TTSService. -/
def ttsDefaultProvider : String := "openai"

/-- Orchestrator state: the cleanup list of temporary files, a counter
standing in for the timestamp-plus-random filename source, and the log of
files written to disk during the call. -/
structure TTSState where
  tempFiles : List String
  nextId : Nat
  created : List String
deriving Repr, DecidableEq

/-- The temporary file path under the uploads directory (timestamp plus
random suffix abstracted as a counter value). -/
def ttsFileName (n : Nat) : String := "uploads/tts_" ++ toString n ++ ".mp3"

/-- Model of TTSService.tryProvider with a synthesis oracle mapping provider
name and text to audio bytes (none = the provider threw). The provider is
looked up, synthesize runs, and only on success is the file written and its
path pushed onto the cleanup list; a failure leaves the state unchanged. -/
def tryProvider (env : String → String → Option (List Nat)) (text provider : String)
    (st : TTSState) : Except String String × TTSState :=
  if provider ∈ registeredProviders then
    match env provider text with
    | some _ =>
      let filename := ttsFileName st.nextId
      (Except.ok filename,
       { tempFiles := st.tempFiles ++ [filename], nextId := st.nextId + 1,
         created := st.created ++ [filename] })
    | none => (Except.error ("TTS provider \x27" ++ provider ++ "\x27 failed"), st)
  else (Except.error ("TTS provider \x27" ++ provider ++ "\x27 not found"), st)

/-- The fallback loop of synthesizeToFile: walk the given provider list in
order, skipping the provider already tried, returning the first success and
the terminal error when the list is exhausted. -/
def tryFallbacks (env : String → String → Option (List Nat)) (text provider : String) :
    List String → TTSState → Except String String × TTSState
  | [], st => (Except.error "All TTS providers failed", st)
  | fp :: rest, st =>
    if fp = provider then tryFallbacks env text provider rest st
    else
      match tryProvider env text fp st with
      | (Except.ok path, st2) => (Except.ok path, st2)
      | (Except.error _, st2) => tryFallbacks env text provider rest st2

/-- Model of TTSService.synthesizeToFile: attempt the requested provider
first; on failure walk the fixed fallback order. -/
def synthesizeToFile (env : String → String → Option (List Nat)) (text provider : String)
    (st : TTSState) : Except String String × TTSState :=
  match tryProvider env text provider st with
  | (Except.ok path, st2) => (Except.ok path, st2)
  | (Except.error _, st2) => tryFallbacks env text provider fallbackOrder st2

/-- Specification-side attempt sequence: the requested provider followed by
the fixed fallback list with the requested provider removed. -/
def attemptOrder (provider : String) : List String :=
  provider :: fallbackOrder.filter (fun p => p != provider)

/-- Specification-side sequential walk over an explicit attempt list: each
provider attempted in turn, first success wins, terminal all-providers-failed
error when the list is exhausted. -/
def firstSuccessWalk (env : String → String → Option (List Nat)) (text : String) :
    List String → TTSState → Except String String × TTSState
  | [], st => (Except.error "All TTS providers failed", st)
  | p :: rest, st =>
    match tryProvider env text p st with
    | (Except.ok path, st2) => (Except.ok path, st2)
    | (Except.error _, st2) => firstSuccessWalk env text rest st2

theorem tryFallbacks_eq_walk (env : String → String → Option (List Nat))
    (text provider : String) :
    ∀ (l : List String) (st : TTSState),
      tryFallbacks env text provider l st
        = firstSuccessWalk env text (l.filter (fun p => p != provider)) st := by
  intro l
  induction l with
  | nil => intro st; rfl
  | cons fp rest ih =>
    intro st
    by_cases hfp : fp = provider
    · have hb : (fp != provider) = false := by simp [hfp]
      simp only [tryFallbacks, if_pos hfp, List.filter_cons, hb, Bool.false_eq_true,
        if_false, ih]
    · have hb : (fp != provider) = true := by simp [hfp]
      simp only [tryFallbacks, if_neg hfp, List.filter_cons, hb, if_true, firstSuccessWalk]
      cases h : tryProvider env text fp st with
      | mk res st2 =>
        cases res with
        | ok path => rfl
        | error e => exact ih st2

/-- Claim C3: synthesizeToFile attempts the requested provider first, then
the fixed fallback order openai, elevenlabs, google, browser strictly in
sequence skipping the provider already tried, and raises the terminal
all-providers-failed error exactly when every attempt fails. -/
theorem synthesizeToFile_fallback_order (env : String → String → Option (List Nat))
    (text provider : String) (st : TTSState) :
    synthesizeToFile env text provider st
      = firstSuccessWalk env text (attemptOrder provider) st := by
  unfold synthesizeToFile attemptOrder
  rw [show firstSuccessWalk env text (provider :: fallbackOrder.filter (fun p => p != provider)) st
        = (match tryProvider env text provider st with
           | (Except.ok path, st2) => (Except.ok path, st2)
           | (Except.error _, st2) =>
             firstSuccessWalk env text (fallbackOrder.filter (fun p => p != provider)) st2)
      from rfl]
  cases h : tryProvider env text provider st with
  | mk res st2 =>
    cases res with
    | ok path => rfl
    | error e => exact tryFallbacks_eq_walk env text provider fallbackOrder st2

theorem tryProvider_frame (env : String → String → Option (List Nat))
    (text p : String) (st : TTSState) :
    (∀ path st2, tryProvider env text p st = (Except.ok path, st2) →
      st2.created = st.created ++ [path] ∧ st2.tempFiles = st.tempFiles ++ [path]) ∧
    (∀ e st2, tryProvider env text p st = (Except.error e, st2) → st2 = st) := by
  constructor
  · intro path st2 h
    unfold tryProvider at h
    by_cases hp : p ∈ registeredProviders
    · rw [if_pos hp] at h
      cases he : env p text with
      | some buf =>
        rw [he] at h
        have h1 := congrArg Prod.fst h
        have h2 := congrArg Prod.snd h
        simp only at h1 h2
        have hpath := Except.ok.inj h1
        rw [← h2, ← hpath]
        exact ⟨rfl, rfl⟩
      | none => rw [he] at h; cases congrArg Prod.fst h
    · rw [if_neg hp] at h
      cases congrArg Prod.fst h
  · intro e st2 h
    unfold tryProvider at h
    by_cases hp : p ∈ registeredProviders
    · rw [if_pos hp] at h
      cases he : env p text with
      | some buf =>
        rw [he] at h
        cases congrArg Prod.fst h
      | none =>
        rw [he] at h
        exact (congrArg Prod.snd h).symm
    · rw [if_neg hp] at h
      exact (congrArg Prod.snd h).symm

theorem tryFallbacks_frame (env : String → String → Option (List Nat))
    (text provider : String) :
    ∀ (l : List String) (st : TTSState),
      (∀ path st2, tryFallbacks env text provider l st = (Except.ok path, st2) →
        st2.created = st.created ++ [path] ∧ st2.tempFiles = st.tempFiles ++ [path]) ∧
      (∀ e st2, tryFallbacks env text provider l st = (Except.error e, st2) → st2 = st) := by
  intro l
  induction l with
  | nil =>
    intro st
    constructor
    · intro path st2 h
      unfold tryFallbacks at h
      cases congrArg Prod.fst h
    · intro e st2 h
      unfold tryFallbacks at h
      exact (congrArg Prod.snd h).symm
  | cons fp rest ih =>
    intro st
    constructor
    · intro path st2 h
      unfold tryFallbacks at h
      by_cases hfp : fp = provider
      · rw [if_pos hfp] at h
        exact ((ih st).1) path st2 h
      · rw [if_neg hfp] at h
        cases ht : tryProvider env text fp st with
        | mk res st3 =>
          cases res with
          | ok path2 =>
            rw [ht] at h
            have h1 := congrArg Prod.fst h
            have h2 := congrArg Prod.snd h
            simp only at h1 h2
            have hpath := Except.ok.inj h1
            have := (tryProvider_frame env text fp st).1 path2 st3 ht
            rw [← h2, ← hpath]
            exact this
          | error e =>
            rw [ht] at h
            have hst3 : st3 = st := (tryProvider_frame env text fp st).2 e st3 ht
            rw [hst3] at h
            exact ((ih st).1) path st2 h
    · intro e st2 h
      unfold tryFallbacks at h
      by_cases hfp : fp = provider
      · rw [if_pos hfp] at h
        exact ((ih st).2) e st2 h
      · rw [if_neg hfp] at h
        cases ht : tryProvider env text fp st with
        | mk res st3 =>
          cases res with
          | ok path2 =>
            rw [ht] at h
            cases congrArg Prod.fst h
          | error e2 =>
            rw [ht] at h
            have hst3 : st3 = st := (tryProvider_frame env text fp st).2 e2 st3 ht
            rw [hst3] at h
            exact ((ih st).2) e st2 h

/-- Claim C4: when some attempt of synthesizeToFile succeeds, exactly one
temporary file is created and its path is appended to the cleanup list; when
every attempt fails, the state is unchanged, so no temporary file is created
or registered by the call. -/
theorem synthesizeToFile_temp_frame (env : String → String → Option (List Nat))
    (text provider : String) (st : TTSState) :
    (∀ path st2, synthesizeToFile env text provider st = (Except.ok path, st2) →
      st2.created = st.created ++ [path] ∧ st2.tempFiles = st.tempFiles ++ [path]) ∧
    (∀ e st2, synthesizeToFile env text provider st = (Except.error e, st2) → st2 = st) := by
  constructor
  · intro path st2 h
    unfold synthesizeToFile at h
    cases ht : tryProvider env text provider st with
    | mk res st3 =>
      cases res with
      | ok path2 =>
        rw [ht] at h
        have h1 := congrArg Prod.fst h
        have h2 := congrArg Prod.snd h
        simp only at h1 h2
        have hpath := Except.ok.inj h1
        have := (tryProvider_frame env text provider st).1 path2 st3 ht
        rw [← h2, ← hpath]
        exact this
      | error e =>
        rw [ht] at h
        have hst3 : st3 = st := (tryProvider_frame env text provider st).2 e st3 ht
        rw [hst3] at h
        exact ((tryFallbacks_frame env text provider fallbackOrder st).1) path st2 h
  · intro e st2 h
    unfold synthesizeToFile at h
    cases ht : tryProvider env text provider st with
    | mk res st3 =>
      cases res with
      | ok path2 =>
        rw [ht] at h
        cases congrArg Prod.fst h
      | error e2 =>
        rw [ht] at h
        have hst3 : st3 = st := (tryProvider_frame env text provider st).2 e2 st3 ht
        rw [hst3] at h
        exact ((tryFallbacks_frame env text provider fallbackOrder st).2) e st2 h

/-- Witness for claim C4: the requested openai provider fails, the google
fallback succeeds, and exactly the one produced file is created and
registered; and with every provider failing the state is unchanged. -/
theorem synthesizeToFile_temp_frame_witness :
    ((synthesizeToFile (fun p _ => if p = "google" then some [1] else none) "hello" "openai"
        { tempFiles := [], nextId := 0, created := [] }).2.created
      = [] ++ ["uploads/tts_0.mp3"]) ∧
    ((synthesizeToFile (fun _ _ => none) "hello" "openai"
        { tempFiles := ["old.mp3"], nextId := 5, created := [] })
      = (Except.error "All TTS providers failed",
         { tempFiles := ["old.mp3"], nextId := 5, created := [] })) := by
  constructor
  · have h := (synthesizeToFile_temp_frame (fun p _ => if p = "google" then some [1] else none)
      "hello" "openai" { tempFiles := [], nextId := 0, created := [] }).1
      "uploads/tts_0.mp3"
      { tempFiles := ["uploads/tts_0.mp3"], nextId := 1, created := ["uploads/tts_0.mp3"] }
      rfl
    rw [show (synthesizeToFile (fun p _ => if p = "google" then some [1] else none) "hello"
          "openai" { tempFiles := [], nextId := 0, created := [] }).2
        = { tempFiles := ["uploads/tts_0.mp3"], nextId := 1,
            created := ["uploads/tts_0.mp3"] } from rfl]
    exact h.1
  · have h := (synthesizeToFile_temp_frame (fun _ _ => none) "hello" "openai"
      { tempFiles := ["old.mp3"], nextId := 5, created := [] }).2
      "All TTS providers failed"
      { tempFiles := ["old.mp3"], nextId := 5, created := [] } rfl
    rw [show synthesizeToFile (fun _ _ => none) "hello" "openai"
          { tempFiles := ["old.mp3"], nextId := 5, created := [] }
        = (Except.error "All TTS providers failed",
           { tempFiles := ["old.mp3"], nextId := 5, created := [] }) from rfl]

/-!
Weather collaborator (getWeatherData in the weather service source) and the
weather branch of the voice-processing route (registerRoutes).
-/

/-- The weather payload returned to the route. Floating-point numbers of the
source are abstracted to integers: Math.round on an integer model is the
identity, and the m/s to km/h conversion rounds half up. -/
structure WeatherReport where
  temperature : Int
  description : String
  humidity : Int
  windSpeed : Int
  location : String
  coordinates : Option (Int × Int)
deriving Repr, DecidableEq

/-- The validated weather-fetch payload (the fields read off the response
after its shape checks pass). -/
structure FetchedWeather where
  temp : Int
  humidity : Int
  windSpeed : Int
  description : String
  name : String
  coord : Option (Int × Int)
deriving Repr, DecidableEq

/-- Oracle outcomes of the network steps of getWeatherData: the configured
API key, the getCurrentLocation call, the geocoding fetch (coordinates found
or not), and the weather fetch together with its response validation (error =
any thrown failure: timeout, non-2xx status, malformed payload). -/
structure WeatherEnv where
  apiKey : Option String
  currentLoc : Except Unit String
  geo : Except Unit (Option (Int × Int))
  fetched : Except String FetchedWeather
deriving Repr

/-- The enhanced API key validation of getWeatherData: the key must be
present and truthy, not the demo placeholder, and at least 10 characters. -/
def apiKeyValid (k : Option String) : Bool :=
  match k with
  | none => false
  | some s => !s.isEmpty && !(s == "demo_key") && decide (10 ≤ s.length)

/-- The mock payload returned when no valid API key is configured. -/
def weatherMock (location : String) : WeatherReport :=
  { temperature := 22, description := "Weather service unavailable - API key needed",
    humidity := 65, windSpeed := 10,
    location := if location = "current" then "Current Location" else location,
    coordinates := none }

/-- The clearly labeled fallback payload of the outer catch. -/
def weatherFallback (location : String) : WeatherReport :=
  { temperature := 22, description := "Weather service unavailable",
    humidity := 65, windSpeed := 10,
    location := if location = "current" then "Current Location" else location,
    coordinates := none }

def upperC (c : Char) : Char :=
  if 'a' ≤ c ∧ c ≤ 'z' then Char.ofNat (c.toNat - 32) else c

/-- Capitalize the first letter of the weather description. -/
def capitalizeFirst (s : String) : String :=
  match s.toList with
  | [] => ""
  | c :: rest => String.mk (upperC c :: rest)

/-- The try body of getWeatherData after the key check: resolve a current or
blank location through getCurrentLocation with its own New York fallback,
reject a blank resolved location, attempt geocoding with its failure caught
and ignored locally, then run the weather fetch, whose thrown errors
propagate to the outer catch. -/
def getWeatherDataInner (env : WeatherEnv) (location : String) :
    Except String WeatherReport :=
  let actualLocation :=
    if location = "current" ∨ location.isEmpty ∨ (jsTrim location).isEmpty then
      match env.currentLoc with
      | Except.ok l => l
      | Except.error _ => "New York"
    else location
  if (jsTrim actualLocation).isEmpty then
    Except.error "Invalid location parameter"
  else
    let coordinates : Option (Int × Int) :=
      match env.geo with
      | Except.ok c => c
      | Except.error _ => none
    match env.fetched with
    | Except.error e => Except.error e
    | Except.ok d =>
      Except.ok
        { temperature := d.temp,
          description := capitalizeFirst d.description,
          humidity := d.humidity,
          windSpeed := (d.windSpeed * 36 + 5) / 10,
          location := d.name,
          coordinates :=
            match coordinates with
            | some c => some c
            | none => d.coord }

/-- Model of getWeatherData: the invalid-key early return of mock data, then
the try body with every internal failure caught and converted to the labeled
fallback payload. The function is total: it never raises to its caller. -/
def getWeatherData (env : WeatherEnv) (location : String) : WeatherReport :=
  if apiKeyValid env.apiKey then
    match getWeatherDataInner env location with
    | Except.ok r => r
    | Except.error _ => weatherFallback location
  else weatherMock location

/-- The weather branch of the voice-processing route: the resolved location
(model data location or utterance extraction) is passed to getWeatherData,
whose result replaces the response data, while the conversational message of
the parsed reply is returned unchanged alongside. -/
def weatherBranch (env : WeatherEnv) (message location : String) :
    String × WeatherReport :=
  (message, getWeatherData env location)

/-- Claim C8: the weather branch returns without throwing for every oracle
outcome - getWeatherData is total, returning the labeled fallback payload on
any internal failure and the mock payload on a missing key - and the
conversational message field is populated (returned unchanged) in the final
response. -/
theorem weather_branch_never_raises (env : WeatherEnv) (message location : String) :
    (weatherBranch env message location).1 = message ∧
    (∀ e, getWeatherDataInner env location = Except.error e →
      apiKeyValid env.apiKey = true →
      (weatherBranch env message location).2 = weatherFallback location) ∧
    (apiKeyValid env.apiKey = false →
      (weatherBranch env message location).2 = weatherMock location) := by
  refine ⟨rfl, ?_, ?_⟩
  · intro e he hk
    simp [weatherBranch, getWeatherData, hk, he]
  · intro hk
    simp [weatherBranch, getWeatherData, hk]

/-- Witness for claim C8: the weather fetch throws a 404 for Nowhereville,
yet the branch returns the fallback payload and the message is intact. -/
theorem weather_branch_never_raises_witness :
    (weatherBranch
        { apiKey := some "k123456789x", currentLoc := Except.ok "X",
          geo := Except.ok none,
          fetched := Except.error "Weather API error (404): Location not found" }
        "Checking the weather now." "Nowhereville").1 = "Checking the weather now." ∧
    (weatherBranch
        { apiKey := some "k123456789x", currentLoc := Except.ok "X",
          geo := Except.ok none,
          fetched := Except.error "Weather API error (404): Location not found" }
        "Checking the weather now." "Nowhereville").2
      = weatherFallback "Nowhereville" := by
  have h := weather_branch_never_raises
    { apiKey := some "k123456789x", currentLoc := Except.ok "X",
      geo := Except.ok none,
      fetched := Except.error "Weather API error (404): Location not found" }
    "Checking the weather now." "Nowhereville"
  exact ⟨h.1, h.2.1 "Weather API error (404): Location not found" rfl rfl⟩

/-!
In-memory conversation and message store (MemStorage, src/server/storage.ts).
JS Maps are modelled as insertion-ordered association lists.
-/

structure Conversation where
  id : String
  title : String
  createdAt : Nat
  updatedAt : Nat
deriving Repr, DecidableEq

structure Message where
  id : String
  conversationId : String
  role : String
  content : String
  audioUrl : Option String
  timestamp : Nat
deriving Repr, DecidableEq

structure MemStorage where
  conversations : List (String × Conversation)
  messages : List (String × Message)
deriving Repr, DecidableEq

/-- Stable insertion sort steps (model of the stable JS array sort): an
element is inserted before strictly worse elements and after equal keys. -/
def insertDescBy (key : α → Nat) (a : α) : List α → List α
  | [] => [a]
  | b :: rest => if key b ≤ key a then a :: b :: rest else b :: insertDescBy key a rest

def sortDescBy (key : α → Nat) (l : List α) : List α := l.foldr (insertDescBy key) []

def insertAscBy (key : α → Nat) (a : α) : List α → List α
  | [] => [a]
  | b :: rest => if key a ≤ key b then a :: b :: rest else b :: insertAscBy key a rest

def sortAscBy (key : α → Nat) (l : List α) : List α := l.foldr (insertAscBy key) []

/-- Model of MemStorage.getConversations: the stored values sorted newest
updated first. -/
def getConversations (st : MemStorage) : List Conversation :=
  sortDescBy (fun c => c.updatedAt) (st.conversations.map Prod.snd)

/-- Model of MemStorage.getMessagesByConversation: the owned messages sorted
oldest first. -/
def getMessagesByConversation (st : MemStorage) (conversationId : String) : List Message :=
  sortAscBy (fun m => m.timestamp)
    ((st.messages.map Prod.snd).filter (fun m => m.conversationId == conversationId))

/-- Model of MemStorage.deleteConversation: false and no change when the id
is absent; otherwise the conversation entry is removed and every message
whose conversationId matches is deleted as well. -/
def deleteConversation (st : MemStorage) (id : String) : Bool × MemStorage :=
  match st.conversations.find? (fun p => p.1 == id) with
  | none => (false, st)
  | some _ =>
    (true,
     { conversations := st.conversations.filter (fun p => !(p.1 == id)),
       messages := st.messages.filter (fun p => !(p.2.conversationId == id)) })

theorem mem_insertDescBy (key : α → Nat) (a x : α) :
    ∀ l, x ∈ insertDescBy key a l ↔ x = a ∨ x ∈ l := by
  intro l
  induction l with
  | nil => simp [insertDescBy]
  | cons b rest ih =>
    by_cases hb : key b ≤ key a
    · simp [insertDescBy, hb]
    · simp [insertDescBy, hb, ih]
      tauto

theorem mem_sortDescBy (key : α → Nat) (x : α) :
    ∀ l, x ∈ sortDescBy key l ↔ x ∈ l := by
  intro l
  induction l with
  | nil => simp [sortDescBy]
  | cons b rest ih =>
    show x ∈ insertDescBy key b (sortDescBy key rest) ↔ _
    rw [mem_insertDescBy]
    simp [ih]

/-- Claim C9: after deleteConversation succeeds on an id (in a store whose
map entries are keyed by their own ids), listing messages for that id returns
the empty sequence and the conversation is absent from the conversation
list. -/
theorem deleteConversation_cascades (st : MemStorage) (id : String) (st2 : MemStorage)
    (hwf : ∀ p ∈ st.conversations, (Prod.snd p).id = p.1)
    (h : deleteConversation st id = (true, st2)) :
    getMessagesByConversation st2 id = [] ∧
    ∀ c ∈ getConversations st2, c.id ≠ id := by
  unfold deleteConversation at h
  cases hf : st.conversations.find? (fun p => p.1 == id) with
  | none =>
    rw [hf] at h
    cases congrArg Prod.fst h
  | some entry =>
    rw [hf] at h
    have hst2 := (congrArg Prod.snd h).symm
    simp only at hst2
    constructor
    · rw [hst2]
      unfold getMessagesByConversation
      have hnil : (((st.messages.filter (fun p => !(p.2.conversationId == id))).map
          Prod.snd).filter (fun m => m.conversationId == id)) = [] := by
        rw [List.filter_eq_nil_iff]
        intro m hm
        obtain ⟨p, hp, hpe⟩ := List.mem_map.mp hm
        have hpf := (List.mem_filter.mp hp).2
        rw [hpe] at hpf
        simp at hpf
        simp [hpf]
      rw [hnil]
      rfl
    · intro c hc
      rw [hst2] at hc
      unfold getConversations at hc
      rw [mem_sortDescBy] at hc
      obtain ⟨p, hp, hpe⟩ := List.mem_map.mp hc
      have hpf := (List.mem_filter.mp hp).2
      have hpm := (List.mem_filter.mp hp).1
      have hid := hwf p hpm
      rw [hpe] at hid
      simp at hpf
      rw [hid]
      exact hpf

/-- Witness for claim C9: deleting a conversation with two messages leaves an
unrelated conversation and its message intact while the deleted id owns no
messages and is gone from the list. -/
theorem deleteConversation_cascades_witness :
    getMessagesByConversation
      { conversations := [("c2", { id := "c2", title := "Chat B", createdAt := 110,
                                   updatedAt := 210 })],
        messages := [("m3", { id := "m3", conversationId := "c2", role := "user",
                              content := "yo", audioUrl := none, timestamp := 170 })] }
      "c1" = [] ∧
    ∀ c ∈ getConversations
      { conversations := [("c2", { id := "c2", title := "Chat B", createdAt := 110,
                                   updatedAt := 210 })],
        messages := [("m3", { id := "m3", conversationId := "c2", role := "user",
                              content := "yo", audioUrl := none, timestamp := 170 })] },
      c.id ≠ "c1" := by
  refine deleteConversation_cascades
    { conversations := [("c1", { id := "c1", title := "Chat A", createdAt := 100,
                                 updatedAt := 200 }),
                        ("c2", { id := "c2", title := "Chat B", createdAt := 110,
                                 updatedAt := 210 })],
      messages := [("m1", { id := "m1", conversationId := "c1", role := "user",
                            content := "hi", audioUrl := none, timestamp := 150 }),
                   ("m2", { id := "m2", conversationId := "c1", role := "assistant",
                            content := "hello", audioUrl := none, timestamp := 160 }),
                   ("m3", { id := "m3", conversationId := "c2", role := "user",
                            content := "yo", audioUrl := none, timestamp := 170 })] }
    "c1" _ ?_ rfl
  intro p hp
  simp at hp
  rcases hp with h1 | h2
  · rw [h1]
  · rw [h2]

end Jarvis
